import Mathlib

/-!
Verification of the hallucination-scoring engine of the `vine` repository
(`backend/layers/hallucination/detector.py`, `backend/services/hallucination.py`,
`backend/config.py`, `backend/models/schemas.py`).

Modelling conventions:
* Python `float` arithmetic is modelled by real arithmetic over `ℝ`.
* Python strings are Lean `String`s; character-level processing works on
  `List Char`.  The regular-expression calls of the source are modelled by a
  small backtracking matcher (`RE`, `reMatch`, `findAll`) whose alternation /
  greedy-repetition priority order coincides with Python's `re` engine on the
  pattern constructs the source uses; each source pattern is transcribed as an
  `RE` value next to its Python original.
* A chunk dict `{"text": …, "source": …, "page": …, "similarity": …}` is the
  structure `SourceChunk`; a missing `"similarity"` key is `none`
  (`c.get("similarity", 0.0)` becomes `Option.getD · 0`).
* The external embedding gateway `embed_texts` is a parameter
  `embed : List String → List (List ℝ)` of the functions that use it.
* `list(set(xs))` only feeds cardinality and membership tests downstream, so it
  is modelled by `List.dedup` (same members, same count, possibly different
  order — the order is unspecified in Python as well).
* Python's `round(x, 1)` is modelled by `round1`; `np.argmax` (index of the
  first maximum) by `argmaxIdx`; the stable `list.sort(key=…, reverse=True)` by
  `List.insertionSort` with the relation "score not smaller", which places an
  earlier element before any later element of equal score, exactly like
  Python's stable descending sort.
-/

namespace Vine

/-- `models/schemas.py` `SourceReference` / the chunk dicts consumed by the
detector: `text`, `source`, `page`, and an optional `similarity`. -/
structure SourceChunk where
  text : String
  source : String
  page : Nat
  similarity : Option ℝ

/-- `models/schemas.py` `SentenceGrounding`. -/
structure SentenceGrounding where
  sentence : String
  grounding_score : ℝ
  best_source : String
  is_grounded : Bool

/-- `models/schemas.py` `HallucinationReport`. -/
structure HallucinationReport where
  overall_score : ℝ
  retrieval_confidence : ℝ
  response_grounding : ℝ
  numerical_fidelity : ℝ
  entity_consistency : ℝ
  sentence_details : List SentenceGrounding
  flagged_claims : List String
  rating : String

/-! ### Text utilities (`detector.py`, identical in `services/hallucination.py`) -/

/-- Python's `\s` on the ASCII range (space, tab, newline, carriage return,
vertical tab, form feed). -/
def pyWS (c : Char) : Bool :=
  c == ' ' || c == '\t' || c == '\n' || c == '\r' || c == '\x0b' || c == '\x0c'

/-- Python `str.strip()`: drop whitespace from both ends. -/
def pyStrip (l : List Char) : List Char :=
  ((l.dropWhile pyWS).reverse.dropWhile pyWS).reverse

/-- Maximal runs of characters satisfying `keep`; separators are dropped
(structural recursion on a fuel that bounds the number of steps; every step
consumes at least one character, so `l.length` fuel is enough). -/
def splitRunsByF (keep : Char → Bool) : Nat → List Char → List (List Char)
  | 0, _ => []
  | _, [] => []
  | fuel + 1, c :: cs =>
    if keep c then (c :: cs.takeWhile keep) :: splitRunsByF keep fuel (cs.dropWhile keep)
    else splitRunsByF keep fuel cs

/-- Maximal runs of characters satisfying `keep`; separators are dropped.
Used for `str.split()` (runs of non-whitespace) and for the token regex
`[a-z0-9]+` (runs of lowercase alphanumerics). -/
def splitRunsBy (keep : Char → Bool) (l : List Char) : List (List Char) :=
  splitRunsByF keep l.length l

/-- Python `str.split()` with no separator: maximal non-whitespace runs. -/
def pyWords (l : List Char) : List (List Char) :=
  splitRunsBy (fun c => !pyWS c) l

/-- Scanner for `re.split(r"(?<=[.!?])\s+", text)`: a cut happens at every
maximal whitespace run whose preceding character is `.`, `!` or `?`; the
whitespace run is consumed.  `prev` is the character before the current
position (the initial `'A'` stands for "no previous character": the lookbehind
cannot match at position 0). -/
def sentenceSplitF : Nat → List Char → Char → List Char → List (List Char)
  | 0, _, _, acc => [acc.reverse]
  | _, [], _, acc => [acc.reverse]
  | fuel + 1, c :: cs, prev, acc =>
    if (prev == '.' || prev == '!' || prev == '?') && pyWS c then
      acc.reverse :: sentenceSplitF fuel (cs.dropWhile pyWS) ' ' []
    else sentenceSplitF fuel cs c (c :: acc)

/-- The scanner, with enough fuel for the whole text (every step consumes at
least one character). -/
def sentenceSplitAux (l : List Char) (prev : Char) (acc : List Char) : List (List Char) :=
  sentenceSplitF l.length l prev acc

/-- `_split_sentences`: split on sentence punctuation followed by whitespace,
strip each piece, keep only pieces that are nonempty and have more than three
words.  (The source filters on `s.strip()` and `len(s.split())` and returns
`s.strip()`; stripping does not change the word list, so stripping first is
equivalent.) -/
def split_sentences (text : String) : List String :=
  (((sentenceSplitAux text.data 'A' []).map pyStrip).filter
      (fun s => !s.isEmpty && decide (3 < (pyWords s).length))).map String.mk

/-- The stopword set `_STOPWORDS` of `detector.py`. -/
def STOPWORDS : List String :=
  ["the", "a", "an", "is", "are", "was", "were", "be", "been", "being",
   "have", "has", "had", "do", "does", "did", "will", "would", "could",
   "should", "may", "might", "shall", "can", "need", "to", "of", "in",
   "for", "on", "with", "at", "by", "from", "as", "into", "through",
   "during", "before", "after", "above", "below", "between", "out",
   "off", "over", "under", "again", "further", "then", "once", "and",
   "but", "or", "nor", "not", "so", "yet", "both", "either", "neither",
   "each", "every", "all", "any", "few", "more", "most", "other", "some",
   "such", "no", "only", "own", "same", "than", "too", "very", "just",
   "because", "if", "when", "where", "how", "what", "which", "who",
   "whom", "this", "that", "these", "those", "it", "its"]

/-- A character matched by `[a-z0-9]` (the text is lowercased first). -/
def isAlnumLower (c : Char) : Bool :=
  (decide ('a' ≤ c) && decide (c ≤ 'z')) || (decide ('0' ≤ c) && decide (c ≤ '9'))

/-- `_tokenize`: lowercase, take the maximal `[a-z0-9]+` runs, drop stopwords
and single-character tokens. -/
def tokenize (text : String) : List String :=
  ((splitRunsBy isAlnumLower (text.data.map Char.toLower)).map String.mk).filter
    (fun w => !STOPWORDS.contains w && decide (1 < w.length))

/-! ### Regular-expression model

A small backtracking matcher.  `reMatch` returns the list of possible
remaining suffixes in the priority order Python's `re` engine explores them
(alternation: left first; `?`, `*`, `{m,n}`: greedy, longer first); the first
entry is the suffix of Python's match.  `fuel` only bounds the recursion depth;
`reFuel` overshoots the depth any pattern of this file can reach on a given
input. -/

inductive RE where
  | cls (p : Char → Bool)
  | lit (s : List Char)
  | cat (a b : RE)
  | alt (a b : RE)
  | opt (a : RE)
  | star (a : RE)

def reSize : RE → Nat
  | .cls _ => 1
  | .lit _ => 1
  | .cat a b => reSize a + reSize b + 1
  | .alt a b => reSize a + reSize b + 1
  | .opt a => reSize a + 1
  | .star a => reSize a + 1

/-- `X+` (greedy). -/
def rePlus (a : RE) : RE := .cat a (.star a)

/-- `X{n}`. -/
def repExact : Nat → RE → RE
  | 0, _ => .lit []
  | n + 1, a => .cat a (repExact n a)

/-- `X{0,n}` (greedy: more repetitions first). -/
def repUpTo : Nat → RE → RE
  | 0, _ => .lit []
  | n + 1, a => .opt (.cat a (repUpTo n a))

/-- `X{m,n}` (greedy). -/
def repRange (m n : Nat) (a : RE) : RE := .cat (repExact m a) (repUpTo (n - m) a)

/-- Left-to-right alternation of a list of alternatives (never matches when the
list is empty). -/
def altList : List RE → RE
  | [] => .cls (fun _ => false)
  | r :: rs => rs.foldl .alt r

/-- All suffixes reachable by matching `re` at the front of `s`, in Python's
backtracking priority order.  In `star`, a body iteration that consumes
nothing ends the repetition (Python's empty-match rule; no body of the
patterns in this file can match empty anyway). -/
def reMatch : Nat → RE → List Char → List (List Char)
  | 0, _, _ => []
  | fuel + 1, re, s =>
    match re with
    | .cls p =>
      match s with
      | [] => []
      | c :: cs => if p c then [cs] else []
    | .lit pre => if pre.isPrefixOf s then [s.drop pre.length] else []
    | .cat a b => (reMatch fuel a s).flatMap (fun t => reMatch fuel b t)
    | .alt a b => reMatch fuel a s ++ reMatch fuel b s
    | .opt a => reMatch fuel a s ++ [s]
    | .star a =>
      ((reMatch fuel a s).filter (fun t => t.length < s.length)).flatMap
        (fun t => reMatch fuel (.star a) t) ++ [s]

/-- Recursion-depth bound for `reMatch`: depth ≤ pattern size per consumed
character, with margin. -/
def reFuel (re : RE) (s : List Char) : Nat := (reSize re + 2) * (s.length + 2)

/-- `re.findall`: scan left to right; at each position take the match if any
(the head of `reMatch`'s priority list), emit the matched prefix, resume after
it (one character further when the match is empty); otherwise advance one
character. -/
def findAllAux : Nat → RE → List Char → List (List Char)
  | 0, _, _ => []
  | fuel + 1, re, s =>
    match (reMatch (reFuel re s) re s).head? with
    | some t =>
      let m := s.take (s.length - t.length)
      if t.length < s.length then m :: findAllAux fuel re t
      else
        match s with
        | [] => [m]
        | _ :: cs => m :: findAllAux fuel re cs
    | none =>
      match s with
      | [] => []
      | _ :: cs => findAllAux fuel re cs

def findAll (re : RE) (text : String) : List String :=
  (findAllAux (text.length + 1) re text.data).map String.mk

/-! ### `_extract_numbers` and `_extract_entities` -/

def digitRE : RE := .cls Char.isDigit

/-- `\$[\d,]+(?:\.\d+)?(?:\s*(?:million|billion|M|B|K))?` -/
def numPat1 : RE :=
  .cat (.lit ['$'])
    (.cat (rePlus (.cls (fun c => c.isDigit || c == ',')))
      (.cat (.opt (.cat (.lit ['.']) (rePlus digitRE)))
        (.opt (.cat (.star (.cls pyWS))
          (altList [.lit "million".data, .lit "billion".data,
                    .lit ['M'], .lit ['B'], .lit ['K']])))))

/-- `\d{1,3}(?:,\d{3})+(?:\.\d+)?` -/
def numPat2 : RE :=
  .cat (repRange 1 3 digitRE)
    (.cat (rePlus (.cat (.lit [',']) (repExact 3 digitRE)))
      (.opt (.cat (.lit ['.']) (rePlus digitRE))))

/-- `\d+\.?\d*\s*%` -/
def numPat3 : RE :=
  .cat (rePlus digitRE)
    (.cat (.opt (.lit ['.']))
      (.cat (.star digitRE) (.cat (.star (.cls pyWS)) (.lit ['%']))))

/-- `\d+\.?\d*` -/
def numPat4 : RE :=
  .cat (rePlus digitRE) (.cat (.opt (.lit ['.'])) (.star digitRE))

/-- `_extract_numbers`: the four families in order, concatenated, then
`list(set(…))` (deduplicated; only membership and count are consumed). -/
def extract_numbers (text : String) : List String :=
  (findAll numPat1 text ++ findAll numPat2 text ++
   findAll numPat3 text ++ findAll numPat4 text).dedup

/-- `[A-Z]{2,4}[-\s]?\d{4,}` -/
def entPat1 : RE :=
  .cat (repRange 2 4 (.cls Char.isUpper))
    (.cat (.opt (.cls (fun c => c == '-' || pyWS c)))
      (.cat (repExact 4 digitRE) (.star digitRE)))

/-- `\d{1,2}/\d{1,2}/\d{2,4}` -/
def entPat2 : RE :=
  .cat (repRange 1 2 digitRE)
    (.cat (.lit ['/'])
      (.cat (repRange 1 2 digitRE) (.cat (.lit ['/']) (repRange 2 4 digitRE))))

def MONTHS : List String :=
  ["January", "February", "March", "April", "May", "June", "July",
   "August", "September", "October", "November", "December"]

/-- `(?:January|…|December)\s+\d{1,2},?\s+\d{4}` -/
def entPat3 : RE :=
  .cat (altList (MONTHS.map (fun m => RE.lit m.data)))
    (.cat (rePlus (.cls pyWS))
      (.cat (repRange 1 2 digitRE)
        (.cat (.opt (.lit [','])) (.cat (rePlus (.cls pyWS)) (repExact 4 digitRE)))))

/-- `[A-Z][a-z]+(?:\s+[A-Z][a-z]+){1,4}` -/
def entPat4 : RE :=
  .cat (.cls Char.isUpper)
    (.cat (rePlus (.cls Char.isLower))
      (repRange 1 4 (.cat (rePlus (.cls pyWS))
        (.cat (.cls Char.isUpper) (rePlus (.cls Char.isLower))))))

/-- `_extract_entities`. -/
def extract_entities (text : String) : List String :=
  (findAll entPat1 text ++ findAll entPat2 text ++
   findAll entPat3 text ++ findAll entPat4 text).dedup

/-! ### Numerical fidelity and entity consistency -/

/-- Python substring test `needle in hay`. -/
def containsSub (needle : List Char) : List Char → Bool
  | [] => needle.isEmpty
  | c :: cs => needle.isPrefixOf (c :: cs) || containsSub needle cs

/-- `num.replace(",", "").replace("$", "").strip()`. -/
def cleanNum (s : String) : String :=
  String.mk (pyStrip (s.data.filter (fun c => !(c == ',') && !(c == '$'))))

/-- `_compute_numerical_fidelity response source_text`. -/
noncomputable def compute_numerical_fidelity (response source_text : String) : ℝ :=
  let response_numbers := extract_numbers response
  if response_numbers.isEmpty then 100
  else
    let source_numbers := extract_numbers source_text
    let matched := response_numbers.countP (fun num =>
      source_numbers.any (fun sn => containsSub (cleanNum num).data (cleanNum sn).data)
      || containsSub num.data source_text.data)
    (matched : ℝ) / response_numbers.length * 100

/-- `_compute_entity_consistency response source_text`. -/
noncomputable def compute_entity_consistency (response source_text : String) : ℝ :=
  let response_entities := extract_entities response
  if response_entities.isEmpty then 100
  else
    let source_lower := source_text.data.map Char.toLower
    let matched := response_entities.countP (fun e =>
      containsSub (e.data.map Char.toLower) source_lower)
    (matched : ℝ) / response_entities.length * 100

/-! ### Configuration (`config.py`) -/

noncomputable section

/-- A weight dict of `config.py` (`HALLUCINATION_WEIGHTS` /
`HALLUCINATION_VOLUME_WEIGHTS`). -/
structure WeightProfile where
  retrieval_confidence : ℝ
  response_grounding : ℝ
  numerical_fidelity : ℝ
  entity_consistency : ℝ

/-- `{"retrieval_confidence": 0.25, "response_grounding": 0.35,
"numerical_fidelity": 0.20, "entity_consistency": 0.20}` -/
def HALLUCINATION_WEIGHTS : WeightProfile := ⟨0.25, 0.35, 0.20, 0.20⟩

/-- `{"retrieval_confidence": 0.30, "response_grounding": 0.30,
"numerical_fidelity": 0.20, "entity_consistency": 0.20}` -/
def HALLUCINATION_VOLUME_WEIGHTS : WeightProfile := ⟨0.30, 0.30, 0.20, 0.20⟩

def MAX_GROUNDING_CHUNKS : ℕ := 20
def GROUNDING_THRESHOLD : ℝ := 0.65
def EMBEDDING_BATCH_SIZE : ℕ := 50
def VOLUME_THRESHOLD : ℕ := 50

/-- Python `round(x, 1)`. -/
def round1 (x : ℝ) : ℝ := (round (10 * x) : ℤ) / 10

/-! ### Retrieval confidence -/

/-- `c.get("similarity", 0.0)`. -/
def simOf (c : SourceChunk) : ℝ := c.similarity.getD 0

/-- `_compute_retrieval_confidence`. -/
def compute_retrieval_confidence (source_chunks : List SourceChunk) : ℝ :=
  if source_chunks.isEmpty then 0
  else
    let similarities := source_chunks.map simOf
    let weights := (List.range similarities.length).map (fun i : ℕ => (1 : ℝ) / ((i : ℝ) + 1))
    let weighted_sum := ((similarities.zip weights).map (fun p => p.1 * p.2)).sum
    let total_weight := weights.sum
    min 1 (weighted_sum / total_weight) * 100

/-! ### TF-IDF pre-filter -/

/-- The inner loop of `_tfidf_prefilter` for one chunk: iterate over the
distinct response tokens (a `Counter`'s keys) and add
`tf · idf · answer-count` for those present in the chunk. -/
def tfidf_score (response_tokens : List String) (num_docs : ℕ)
    (doc_freq : String → ℕ) (chunk : SourceChunk) : ℝ :=
  let chunk_tokens := tokenize chunk.text
  (response_tokens.dedup.map (fun token =>
    if chunk_tokens.contains token then
      (chunk_tokens.count token : ℝ) / (max chunk_tokens.length 1)
        * Real.log (((num_docs : ℝ) + 1) / ((doc_freq token : ℝ) + 1))
        * (response_tokens.count token : ℝ)
    else 0)).sum

/-- The element type of `scored_chunks`: `(score, i, chunk)`. -/
abbrev Scored := ℝ × ℕ × SourceChunk

/-- `scored_chunks.sort(key=lambda x: x[0], reverse=True)` compares scores
only; insertion sort with this relation reproduces Python's stable descending
sort (equal scores keep their input order). -/
def scoreGE (x y : Scored) : Prop := y.1 ≤ x.1

instance : DecidableRel scoreGE := fun x y => Real.decidableLE y.1 x.1

/-- `_tfidf_prefilter`. -/
def tfidf_prefilter (response : String) (source_chunks : List SourceChunk)
    (max_chunks : ℕ) : List SourceChunk :=
  if source_chunks.length ≤ max_chunks then source_chunks
  else
    let response_tokens := tokenize response
    if response_tokens.isEmpty then source_chunks.take max_chunks
    else
      let num_docs := source_chunks.length
      let doc_freq : String → ℕ := fun token =>
        source_chunks.countP (fun c => (tokenize c.text).contains token)
      let scored_chunks : List Scored := source_chunks.enum.map
        (fun p => (tfidf_score response_tokens num_docs doc_freq p.2, p.1, p.2))
      ((scored_chunks.insertionSort scoreGE).take max_chunks).map (fun t => t.2.2)

/-! ### Batched embedding -/

/-- Split into consecutive batches of size `n + 1`
(`range(0, len(texts), batch_size)` slices). -/
def chunksOfSucc (n : ℕ) : List α → List (List α)
  | [] => []
  | x :: xs => ((x :: xs).take (n + 1)) :: chunksOfSucc n ((x :: xs).drop (n + 1))
termination_by l => l.length
decreasing_by
  simp only [List.length_drop, List.length_cons]
  omega

/-- `_batched_embed`: embed in batches of `batch_size` (the call sites pass
`EMBEDDING_BATCH_SIZE = 50`) and concatenate. -/
def batched_embed (embed : List String → List (List ℝ)) (texts : List String)
    (batch_size : ℕ) : List (List ℝ) :=
  if texts.isEmpty then []
  else ((chunksOfSucc (batch_size - 1) texts).map embed).flatten

/-- `_build_source_context`: `" ".join(c["text"] for c in source_chunks)`. -/
def build_source_context (source_chunks : List SourceChunk) : String :=
  String.intercalate " " (source_chunks.map (fun c => c.text))

/-! ### Response grounding -/

/-- `np.linalg.norm` of a vector. -/
def l2norm (v : List ℝ) : ℝ := Real.sqrt ((v.map (fun x => x * x)).sum)

/-- One row of the normalization step: divide by the L2 norm, a zero norm
being replaced by 1 (`sent_norms[sent_norms == 0] = 1.0`). -/
def normalizeRow (v : List ℝ) : List ℝ :=
  let n := l2norm v
  let d := if n = 0 then 1 else n
  v.map (fun x => x / d)

/-- `np.dot` of two vectors. -/
def dotList (a b : List ℝ) : ℝ := ((a.zip b).map (fun p => p.1 * p.2)).sum

/-- `_cosine_similarity` (`services/hallucination.py`, also present unused in
`detector.py`). -/
def cosine_similarity (a b : List ℝ) : ℝ :=
  let norm := l2norm a * l2norm b
  if norm = 0 then 0 else dotList a b / norm

/-- Maximum of a row (0 for an empty row; only applied to nonempty rows). -/
def rowMax : List ℝ → ℝ
  | [] => 0
  | x :: xs => xs.foldl max x

/-- `np.argmax`: index of the first occurrence of the maximum. -/
def argmaxIdx (row : List ℝ) : ℕ := row.indexOf (rowMax row)

/-- `min(1.0, best_sim / 0.8) * 100`. -/
def sentenceScore (best_sim : ℝ) : ℝ := min 1 (best_sim / 0.8) * 100

/-- The default chunk used to model Python's (unreachable, for well-formed
embeddings) out-of-range list indexing. -/
def noChunk : SourceChunk := ⟨"", "", 0, none⟩

/-- The `SentenceGrounding(...)` construction shared by both grounding
implementations. -/
def mkSentenceGrounding (sent : String) (best_sim : ℝ) (best_source : String)
    (grounding_threshold : ℝ) : SentenceGrounding :=
  { sentence := String.mk (sent.data.take 200)
    grounding_score := round1 (sentenceScore best_sim)
    best_source := best_source
    is_grounded := decide (grounding_threshold < best_sim) }

/-- The body of detector.py's `for i, sent in enumerate(sentences)` loop,
applied to a pair `(sentence, its similarity-matrix row)`: first argmax of
the row, its value, its chunk, score and detail. -/
def vecEntry (filtered_chunks : List SourceChunk) (grounding_threshold : ℝ)
    (p : String × List ℝ) : ℝ × SentenceGrounding :=
  let best_idx := argmaxIdx p.2
  let best_sim := p.2.getD best_idx 0
  let best_chunk := filtered_chunks.getD best_idx noChunk
  (sentenceScore best_sim,
    mkSentenceGrounding p.1 best_sim
      (best_chunk.source ++ ", p" ++ toString best_chunk.page) grounding_threshold)

/-- The body of services/hallucination.py's `for sent, sent_emb in zip(...)`
loop, applied to a pair `(sentence, its embedding)`: running best over the
chunks (initial `(0.0, "")`, update on strictly larger cosine similarity),
then score and detail with the hardcoded 0.65 threshold. -/
def loopEntry (source_chunks : List SourceChunk) (source_embeddings : List (List ℝ))
    (p : String × List ℝ) : ℝ × SentenceGrounding :=
  let best := (source_chunks.zip source_embeddings).foldl
    (fun acc q =>
      let sim := cosine_similarity p.2 q.2
      if acc.1 < sim then (sim, q.1.source ++ ", p" ++ toString q.1.page) else acc)
    ((0 : ℝ), "")
  (sentenceScore best.1, mkSentenceGrounding p.1 best.1 best.2 (0.65 : ℝ))

/-- `_compute_response_grounding` of `detector.py`: pre-filter, batch-embed,
vectorized similarity matrix, per-row argmax.  (Out-of-range indexing, a
Python exception, is modelled by `zip` truncation / `getD` defaults; it cannot
occur when `embed` returns one vector per text.) -/
def compute_response_grounding (embed : List String → List (List ℝ))
    (response : String) (source_chunks : List SourceChunk)
    (grounding_threshold : ℝ) (max_chunks : ℕ) : ℝ × List SentenceGrounding :=
  let sentences := split_sentences response
  if sentences.isEmpty || source_chunks.isEmpty then (0, [])
  else
    let filtered_chunks := tfidf_prefilter response source_chunks max_chunks
    let sentence_embeddings := batched_embed embed sentences EMBEDDING_BATCH_SIZE
    let source_texts := filtered_chunks.map (fun c => c.text)
    let source_embeddings := batched_embed embed source_texts EMBEDDING_BATCH_SIZE
    let similarity_matrix := sentence_embeddings.map (fun srow =>
      source_embeddings.map (fun crow => dotList (normalizeRow srow) (normalizeRow crow)))
    let entries := (sentences.zip similarity_matrix).map
      (vecEntry filtered_chunks grounding_threshold)
    let scores := entries.map (fun e => e.1)
    (if scores.isEmpty then 0 else scores.sum / scores.length, entries.map (fun e => e.2))

/-- `_compute_response_grounding` of `services/hallucination.py`: the
nested-loop implementation. -/
def compute_response_grounding_loop (embed : List String → List (List ℝ))
    (response : String) (source_chunks : List SourceChunk) : ℝ × List SentenceGrounding :=
  let sentences := split_sentences response
  if sentences.isEmpty || source_chunks.isEmpty then (0, [])
  else
    let sentence_embeddings := embed sentences
    let source_embeddings := embed (source_chunks.map (fun c => c.text))
    let entries := (sentences.zip sentence_embeddings).map
      (loopEntry source_chunks source_embeddings)
    let scores := entries.map (fun e => e.1)
    (if scores.isEmpty then 0 else scores.sum / scores.length, entries.map (fun e => e.2))

/-! ### Report assembly (`analyze_hallucination`) -/

/-- The rating tail of `analyze_hallucination`. -/
def rate (overall : ℝ) : String :=
  if 80 ≤ overall then "low" else if 50 ≤ overall then "medium" else "high"

/-- `analyze_hallucination` of `detector.py`, parametrized by the embedding
gateway. -/
def analyze_hallucination (embed : List String → List (List ℝ))
    (response : String) (source_chunks : List SourceChunk) (query : String) :
    HallucinationReport :=
  let source_text := build_source_context source_chunks
  let retrieval_score := compute_retrieval_confidence source_chunks
  let g := compute_response_grounding embed response source_chunks
    GROUNDING_THRESHOLD MAX_GROUNDING_CHUNKS
  let numerical_score := compute_numerical_fidelity response source_text
  let entity_score := compute_entity_consistency response source_text
  let w := if VOLUME_THRESHOLD ≤ source_chunks.length then HALLUCINATION_VOLUME_WEIGHTS
    else HALLUCINATION_WEIGHTS
  let overall := round1 (min 100 (max 0
    (retrieval_score * w.retrieval_confidence + g.1 * w.response_grounding
      + numerical_score * w.numerical_fidelity + entity_score * w.entity_consistency)))
  { overall_score := overall
    retrieval_confidence := round1 retrieval_score
    response_grounding := round1 g.1
    numerical_fidelity := round1 numerical_score
    entity_consistency := round1 entity_score
    sentence_details := g.2
    flagged_claims := ((g.2.filter (fun d => !d.is_grounded)).map (fun d => d.sentence)).take 10
    rating := rate overall }

end

/-! ### Concrete fixtures and derived orderings used by the verification -/

/-- A chunk carrying a negative retrieval similarity (the spec declares
`similarity` "treated as unbounded", so this is a valid input). -/
def negSimChunk : SourceChunk := ⟨"t", "s", 1, some (-1)⟩

/-- The total order actually realized by Python's stable descending sort on
`scored_chunks`: strictly higher score first, equal scores ordered by original
(0-based) input index. -/
def scoreIdxLex (x y : Scored) : Prop := y.1 < x.1 ∨ (x.1 = y.1 ∧ x.2.1 ≤ y.2.1)

noncomputable instance : DecidableRel scoreIdxLex := fun x y =>
  inferInstanceAs (Decidable (_ ∨ _))

/-- Chunks for the prefilter counterexample: the best-scoring chunk comes
last in the input. -/
def chunkA : SourceChunk := ⟨"premium filler", "a", 1, none⟩
def chunkB : SourceChunk := ⟨"nothing here", "b", 2, none⟩
def chunkC : SourceChunk := ⟨"premium", "c", 3, none⟩

/-- A chunk for the grounding counterexample. -/
def chunkD : SourceChunk := ⟨"irrelevant words entirely", "doc", 7, none⟩

/-- Embeddings giving the (single, qualifying) answer sentence cosine
similarity −1 against the only chunk. -/
noncomputable def phiCE : String → List ℝ :=
  fun t => if t = "The premium is not refundable." then [1] else [-1]


/-! ## Helper lemmas -/

theorem round1_intCast (n : ℤ) : round1 ((n : ℝ)) = n := by
  unfold round1
  rw [show (10 : ℝ) * n = ((10 * n : ℤ) : ℝ) by push_cast; ring, round_intCast]
  push_cast
  rw [mul_div_cancel_left₀]
  norm_num

theorem round1_zero : round1 (0 : ℝ) = 0 := by simpa using round1_intCast 0

theorem round1_mono {x y : ℝ} (h : x ≤ y) : round1 x ≤ round1 y := by
  unfold round1
  have h2 : round (10 * x) ≤ round (10 * y) := by
    rw [round_eq, round_eq]
    exact Int.floor_le_floor (by linarith)
  have h3 : ((round (10 * x) : ℤ) : ℝ) ≤ ((round (10 * y) : ℤ) : ℝ) := Int.cast_le.mpr h2
  linarith

theorem round1_nonneg {x : ℝ} (h : 0 ≤ x) : 0 ≤ round1 x := by
  have := round1_mono h
  rw [round1_zero] at this
  exact this

theorem round1_le_100 {x : ℝ} (h : x ≤ 100) : round1 x ≤ 100 := by
  have h1 := round1_mono h
  have h2 : round1 (100 : ℝ) = 100 := by simpa using round1_intCast 100
  linarith

theorem sum_map_range (n : ℕ) (w : ℕ → ℝ) :
    ((List.range n).map w).sum = ∑ i ∈ Finset.range n, w i := by
  induction n with
  | zero => simp
  | succ n ih => rw [List.range_succ, Finset.sum_range_succ]; simp [ih]

theorem zip_weight_sum (l : List ℝ) (w : ℕ → ℝ) :
    ((l.zip ((List.range l.length).map w)).map (fun p => p.1 * p.2)).sum
      = ∑ i ∈ Finset.range l.length, l.getD i 0 * w i := by
  induction l generalizing w with
  | nil => simp
  | cons x xs ih =>
    have hr : List.range (x :: xs).length = 0 :: (List.range xs.length).map Nat.succ := by
      simp [List.range_succ_eq_map]
    rw [hr]
    simp only [List.length_cons]
    rw [Finset.sum_range_succ']
    simp only [List.map_cons, List.zip_cons_cons, List.map_map, List.sum_cons,
      List.getD_cons_zero, List.getD_cons_succ]
    rw [show ((List.range xs.length).map (w ∘ Nat.succ)) =
        ((List.range xs.length).map (fun i => w (i + 1))) from rfl, ih (fun i => w (i + 1))]
    ring


theorem retrieval_neg_eval : compute_retrieval_confidence [negSimChunk] = -100 := by
  have hr : List.range 1 = [0] := by decide
  simp only [compute_retrieval_confidence, negSimChunk, simOf, List.isEmpty_cons,
    List.map_cons, List.map_nil, List.length_cons, List.length_nil, hr,
    List.zip_cons_cons, List.zip_nil_right, List.sum_cons, List.sum_nil,
    Option.getD_some, Bool.false_eq_true, if_false]
  norm_num [min_def]

theorem min_one_mul_100 (x : ℝ) : min 1 x * 100 = min 100 (x * 100) := by
  rw [min_mul_of_nonneg _ _ (by norm_num : (0:ℝ) ≤ 100)]
  norm_num

theorem min_one_mul_le (x : ℝ) : min 1 x * 100 ≤ 100 := by
  have h := min_le_left 1 x
  nlinarith

theorem min_one_mul_nonneg {x : ℝ} (h : 0 ≤ x) : 0 ≤ min 1 x * 100 := by
  have h2 : (0:ℝ) ≤ min 1 x := le_min (by norm_num) h
  nlinarith

theorem avg_le_100 (scores : List ℝ) (h : ∀ x ∈ scores, x ≤ 100) :
    (if scores.isEmpty then (0:ℝ) else scores.sum / scores.length) ≤ 100 := by
  by_cases hs : scores.isEmpty
  · simp [hs]
  · rw [if_neg hs]
    have hne : scores ≠ [] := by simpa [List.isEmpty_iff] using hs
    have hlen : 0 < (scores.length : ℝ) := by
      exact_mod_cast List.length_pos.mpr hne
    rw [div_le_iff₀ hlen]
    have := List.sum_le_card_nsmul scores 100 h
    simpa [nsmul_eq_mul, mul_comm] using this

theorem sentenceScore_le_100 (x : ℝ) : sentenceScore x ≤ 100 := by
  unfold sentenceScore
  have : min 1 (x / 0.8) ≤ 1 := min_le_left _ _
  nlinarith

theorem grounding_fst_le_100 (embed : List String → List (List ℝ))
    (response : String) (source_chunks : List SourceChunk) (thr : ℝ) (m : ℕ) :
    (compute_response_grounding embed response source_chunks thr m).1 ≤ 100 := by
  simp only [compute_response_grounding]
  split
  · norm_num
  · dsimp only
    apply avg_le_100
    intro x hx
    simp only [List.map_map, List.mem_map, Function.comp_apply] at hx
    obtain ⟨p, _, hpe⟩ := hx
    rw [← hpe]
    exact sentenceScore_le_100 _

theorem ratio_bounds (k n : ℕ) (hk : k ≤ n) (hn : 0 < n) :
    0 ≤ (k : ℝ) / n * 100 ∧ (k : ℝ) / n * 100 ≤ 100 := by
  have hn' : 0 < (n : ℝ) := by positivity
  constructor
  · positivity
  · have h1 : (k : ℝ) / n ≤ 1 := (div_le_one hn').mpr (by exact_mod_cast hk)
    nlinarith

theorem numerical_fidelity_bounds (r s : String) :
    0 ≤ compute_numerical_fidelity r s ∧ compute_numerical_fidelity r s ≤ 100 := by
  simp only [compute_numerical_fidelity]
  by_cases h : (extract_numbers r).isEmpty
  · rw [if_pos h]
    norm_num
  · rw [if_neg h]
    exact ratio_bounds _ _ (List.countP_le_length _)
      (List.length_pos.mpr (by simpa [List.isEmpty_iff] using h))

theorem entity_consistency_bounds (r s : String) :
    0 ≤ compute_entity_consistency r s ∧ compute_entity_consistency r s ≤ 100 := by
  simp only [compute_entity_consistency]
  by_cases h : (extract_entities r).isEmpty
  · rw [if_pos h]
    norm_num
  · rw [if_neg h]
    exact ratio_bounds _ _ (List.countP_le_length _)
      (List.length_pos.mpr (by simpa [List.isEmpty_iff] using h))

theorem retrieval_le_100 (source_chunks : List SourceChunk) :
    compute_retrieval_confidence source_chunks ≤ 100 := by
  simp only [compute_retrieval_confidence]
  split
  · norm_num
  · exact min_one_mul_le _

theorem harmonic_weights_sum_pos (n : ℕ) (hn : n ≠ 0) :
    0 < (((List.range n).map (fun i : ℕ => (1:ℝ)/((i:ℝ)+1))).sum) := by
  apply List.sum_pos
  · intro x hx
    obtain ⟨i, _, hieq⟩ := List.mem_map.mp hx
    rw [← hieq]
    positivity
  · simp [hn, List.range_eq_nil]

theorem weighted_sum_nonneg (sims : List ℝ) (hs : ∀ x ∈ sims, 0 ≤ x) :
    0 ≤ ((sims.zip ((List.range sims.length).map (fun i : ℕ => (1:ℝ)/((i:ℝ)+1)))).map
      (fun p => p.1 * p.2)).sum := by
  apply List.sum_nonneg
  intro x hx
  obtain ⟨p, hp, hpe⟩ := List.mem_map.mp hx
  rw [← hpe]
  have hmem := List.of_mem_zip hp
  have h1 : 0 ≤ p.1 := hs _ hmem.1
  have h2 : 0 ≤ p.2 := by
    obtain ⟨i, _, hieq⟩ := List.mem_map.mp hmem.2
    rw [← hieq]
    positivity
  exact mul_nonneg h1 h2

theorem retrieval_nonneg (source_chunks : List SourceChunk)
    (h : ∀ c ∈ source_chunks, 0 ≤ simOf c) :
    0 ≤ compute_retrieval_confidence source_chunks := by
  simp only [compute_retrieval_confidence]
  by_cases he : source_chunks.isEmpty
  · rw [if_pos he]
  · rw [if_neg he]
    refine min_one_mul_nonneg (div_nonneg ?_ ?_)
    · apply weighted_sum_nonneg
      intro x hx
      obtain ⟨c, hc, hceq⟩ := List.mem_map.mp hx
      rw [← hceq]
      exact h c hc
    · refine (harmonic_weights_sum_pos _ ?_).le
      have hne : source_chunks ≠ [] := by simpa [List.isEmpty_iff] using he
      simp [hne]


theorem orderedInsert_stable (x : Scored) (l : List Scored)
    (hx : ∀ y ∈ l, x.2.1 < y.2.1) :
    l.orderedInsert scoreGE x = l.orderedInsert scoreIdxLex x := by
  induction l with
  | nil => rfl
  | cons b t ih =>
    have hxb : x.2.1 < b.2.1 := hx b (List.mem_cons_self b t)
    by_cases h : scoreGE x b
    · have h2 : scoreIdxLex x b := by
        rcases lt_or_eq_of_le h with h1 | h1
        · exact Or.inl h1
        · exact Or.inr ⟨h1.symm, hxb.le⟩
      rw [List.orderedInsert, List.orderedInsert, if_pos h, if_pos h2]
    · have h2 : ¬ scoreIdxLex x b := by
        intro hc
        rcases hc with hc | hc
        · exact h hc.le
        · exact h hc.1.ge
      rw [List.orderedInsert, List.orderedInsert, if_neg h, if_neg h2,
        ih (fun y hy => hx y (List.mem_cons_of_mem b hy))]

theorem insertionSort_stable (l : List Scored)
    (h : l.Pairwise (fun a b => a.2.1 < b.2.1)) :
    l.insertionSort scoreGE = l.insertionSort scoreIdxLex := by
  induction l with
  | nil => rfl
  | cons x t ih =>
    rw [List.insertionSort, List.insertionSort, ih (List.Pairwise.of_cons h)]
    apply orderedInsert_stable
    intro y hy
    exact (List.pairwise_cons.mp h).1 y ((List.mem_insertionSort scoreIdxLex).mp hy)

theorem enumFrom_fst_le (m : ℕ) (l : List α) : ∀ q ∈ l.enumFrom m, m ≤ q.1 := by
  induction l generalizing m with
  | nil => simp
  | cons x t ih =>
    intro q hq
    simp only [List.enumFrom, List.mem_cons] at hq
    rcases hq with rfl | hq
    · exact le_refl _
    · exact (Nat.le_succ m).trans (ih (m + 1) q hq)

theorem pairwise_fst_lt_enumFrom (m : ℕ) (l : List α) :
    (l.enumFrom m).Pairwise (fun p q => p.1 < q.1) := by
  induction l generalizing m with
  | nil => simp
  | cons x t ih =>
    simp only [List.enumFrom]
    refine List.Pairwise.cons ?_ (ih (m + 1))
    intro q hq
    exact Nat.lt_of_succ_le (enumFrom_fst_le (m + 1) t q hq)

/-! Helper lemmas for the vectorized-vs-loop grounding equivalence (C3). -/

theorem list_sum_nonneg_all_zero {l : List ℝ} (h0 : ∀ x ∈ l, 0 ≤ x)
    (hs : l.sum = 0) : ∀ x ∈ l, x = 0 := by
  induction l with
  | nil => simp
  | cons a t ih =>
    have ha : 0 ≤ a := h0 a (List.mem_cons_self a t)
    have ht : 0 ≤ t.sum := List.sum_nonneg (fun x hx => h0 x (List.mem_cons_of_mem a hx))
    rw [List.sum_cons] at hs
    have ha0 : a = 0 := le_antisymm (by linarith) ha
    have hts : t.sum = 0 := by linarith
    intro x hx
    rcases List.mem_cons.mp hx with rfl | hx
    · exact ha0
    · exact ih (fun y hy => h0 y (List.mem_cons_of_mem a hy)) hts x hx

theorem l2norm_nonneg (v : List ℝ) : 0 ≤ l2norm v := Real.sqrt_nonneg _

theorem l2norm_eq_zero_entries {v : List ℝ} (h : l2norm v = 0) : ∀ x ∈ v, x = 0 := by
  have hsq : ∀ y ∈ v.map (fun x => x * x), 0 ≤ y := by
    intro y hy
    obtain ⟨x, _, hxe⟩ := List.mem_map.mp hy
    rw [← hxe]
    exact mul_self_nonneg x
  have hsum : (v.map (fun x => x * x)).sum = 0 := by
    have hnn : 0 ≤ (v.map (fun x => x * x)).sum := List.sum_nonneg hsq
    have := (Real.sqrt_eq_zero hnn).mp h
    exact this
  intro x hx
  have := list_sum_nonneg_all_zero hsq hsum (x * x) (List.mem_map.mpr ⟨x, hx, rfl⟩)
  exact mul_self_eq_zero.mp this

theorem dotList_zero_left {a : List ℝ} (b : List ℝ) (h : ∀ x ∈ a, x = 0) :
    dotList a b = 0 := by
  apply List.sum_eq_zero
  intro y hy
  obtain ⟨p, hp, hpe⟩ := List.mem_map.mp hy
  rw [← hpe, h p.1 (List.of_mem_zip hp).1, zero_mul]

theorem dotList_zero_right (a : List ℝ) {b : List ℝ} (h : ∀ x ∈ b, x = 0) :
    dotList a b = 0 := by
  apply List.sum_eq_zero
  intro y hy
  obtain ⟨p, hp, hpe⟩ := List.mem_map.mp hy
  rw [← hpe, h p.2 (List.of_mem_zip hp).2, mul_zero]

theorem dotList_div_div (a : List ℝ) (s t : ℝ) :
    ∀ b : List ℝ, dotList (a.map (fun x => x / s)) (b.map (fun x => x / t))
      = dotList a b / (s * t) := by
  induction a with
  | nil => intro b; simp [dotList]
  | cons x xs ih =>
    intro b
    cases b with
    | nil => simp [dotList]
    | cons y ys =>
      simp only [List.map_cons, dotList, List.zip_cons_cons, List.sum_cons] at *
      rw [ih ys]
      rw [div_mul_div_comm, div_add_div_same]

theorem normalizeRow_zero_entries {v : List ℝ} (h : l2norm v = 0) :
    ∀ x ∈ normalizeRow v, x = 0 := by
  intro x hx
  obtain ⟨y, hy, hye⟩ := List.mem_map.mp hx
  rw [← hye, l2norm_eq_zero_entries h y hy, zero_div]

/-- The similarity-matrix entry of the vectorized implementation (dot product
of the L2-normalized rows, zero norms replaced by 1) coincides with
`_cosine_similarity` of the nested-loop implementation. -/
theorem dot_normalize_eq_cosine (a b : List ℝ) :
    dotList (normalizeRow a) (normalizeRow b) = cosine_similarity a b := by
  by_cases ha : l2norm a = 0
  · rw [dotList_zero_left _ (normalizeRow_zero_entries ha)]
    simp [cosine_similarity, ha]
  · by_cases hb : l2norm b = 0
    · rw [dotList_zero_right _ (normalizeRow_zero_entries hb)]
      simp [cosine_similarity, hb]
    · have hab : l2norm a * l2norm b ≠ 0 := mul_ne_zero ha hb
      simp only [normalizeRow, if_neg ha, if_neg hb]
      rw [dotList_div_div]
      simp only [cosine_similarity]
      rw [if_neg hab]

theorem le_foldl_max (r : List ℝ) (b : ℝ) : b ≤ r.foldl max b := by
  induction r generalizing b with
  | nil => simp
  | cons y ys ih => exact le_trans (le_max_left b y) (ih (max b y))

theorem foldl_max_attained (r : List ℝ) (b : ℝ) :
    r.foldl max b = b ∨ r.foldl max b ∈ r := by
  induction r generalizing b with
  | nil => simp
  | cons y ys ih =>
    simp only [List.foldl_cons]
    rcases ih (max b y) with h | h
    · rcases max_choice b y with hm | hm
      · left
        rw [h, hm]
      · right
        rw [h, hm]
        exact List.mem_cons_self _ _
    · right
      exact List.mem_cons_of_mem _ h

theorem rowMax_cons (y : ℝ) (ys : List ℝ) : rowMax (y :: ys) = ys.foldl max y := rfl

theorem rowMax_mem {row : List ℝ} (h : row ≠ []) : rowMax row ∈ row := by
  cases row with
  | nil => exact absurd rfl h
  | cons y ys =>
    rcases foldl_max_attained ys y with h2 | h2
    · rw [rowMax_cons, h2]
      exact List.mem_cons_self _ _
    · rw [rowMax_cons]
      exact List.mem_cons_of_mem _ h2

theorem getD_argmax {row : List ℝ} (h : row ≠ []) :
    row.getD (argmaxIdx row) 0 = rowMax row := by
  have hmem : rowMax row ∈ row := rowMax_mem h
  unfold argmaxIdx
  have hlt : row.indexOf (rowMax row) < row.length := List.indexOf_lt_length.mpr hmem
  rw [List.getD_eq_getElem _ _ hlt]
  exact List.getElem_indexOf hlt

theorem getD_indexOf_map (f : α → ℝ) (junk : α) (M : ℝ) :
    ∀ l : List α, M ∈ l.map f →
      l.getD ((l.map f).indexOf M) junk
        = (l.find? (fun x => decide (f x = M))).getD junk := by
  intro l
  induction l with
  | nil => simp
  | cons x xs ih =>
    intro hM
    by_cases h : f x = M
    · rw [List.map_cons, List.indexOf_cons_eq _ h,
        List.find?_cons_of_pos _ (by simp [h])]
      rfl
    · have hM' : M ∈ xs.map f := by
        rw [List.map_cons] at hM
        rcases List.mem_cons.mp hM with h2 | h2
        · exact absurd h2.symm h
        · exact h2
      rw [List.map_cons, List.indexOf_cons_ne _ h,
        List.find?_cons_of_neg _ (by simp [h])]
      simpa [List.getD_cons_succ] using ih hM'

/-- The running best of `services/hallucination.py` (initial `(0.0, "")`,
strict improvement) characterized in closed form: it returns the maximum of
`b` and all `f`-values together with the label of the first element attaining
that maximum, or the initial pair when nothing strictly improves on it. -/
theorem foldl_best_char (f : α → ℝ) (g : α → String) :
    ∀ (l : List α) (b : ℝ) (s : String),
      l.foldl (fun acc x => if acc.1 < f x then (f x, g x) else acc) (b, s)
        = if b < (l.map f).foldl max b
          then ((l.map f).foldl max b,
                ((l.find? (fun x => decide (f x = (l.map f).foldl max b))).map g).getD s)
          else (b, s) := by
  intro l
  induction l with
  | nil =>
    intro b s
    simp
  | cons x xs ih =>
    intro b s
    simp only [List.foldl_cons, List.map_cons]
    by_cases hbx : b < f x
    · rw [if_pos hbx, ih (f x) (g x)]
      simp only [max_eq_right hbx.le]
      have hfxM : f x ≤ (xs.map f).foldl max (f x) := le_foldl_max _ _
      have hbM : b < (xs.map f).foldl max (f x) := lt_of_lt_of_le hbx hfxM
      rw [if_pos hbM]
      by_cases hx : f x = (xs.map f).foldl max (f x)
      · rw [if_neg (by rw [← hx]; exact lt_irrefl _),
          List.find?_cons_of_pos _ (by rw [decide_eq_true_eq]; exact hx)]
        rw [← hx]
        rfl
      · have hlt : f x < (xs.map f).foldl max (f x) := lt_of_le_of_ne hfxM hx
        rw [if_pos hlt, List.find?_cons_of_neg _ (by simp [hx])]
        have hmem : (xs.map f).foldl max (f x) ∈ xs.map f := by
          rcases foldl_max_attained (xs.map f) (f x) with h2 | h2
          · exact absurd h2.symm hx
          · exact h2
        obtain ⟨y, hy, hye⟩ := List.mem_map.mp hmem
        have hsome : (xs.find? (fun z =>
            decide (f z = (xs.map f).foldl max (f x)))).isSome := by
          rw [List.find?_isSome]
          exact ⟨y, hy, by simp [hye]⟩
        obtain ⟨v, hv⟩ := Option.isSome_iff_exists.mp hsome
        rw [hv]
        rfl
    · rw [if_neg hbx, ih b s]
      simp only [max_eq_left (not_lt.mp hbx)]
      by_cases hbM : b < (xs.map f).foldl max b
      · rw [if_pos hbM, if_pos hbM]
        have hfx : ¬ f x = (xs.map f).foldl max b := by
          intro hc
          rw [hc] at hbx
          exact hbx (lt_of_lt_of_le hbM (le_refl _))
        rw [List.find?_cons_of_neg _ (by simp [hfx])]
      · rw [if_neg hbM, if_neg hbM]

theorem zip_map_self (g : α → β) : ∀ l : List α,
    l.zip (l.map g) = l.map (fun x => (x, g x)) := by
  intro l
  induction l with
  | nil => rfl
  | cons x xs ih => simp [ih]

theorem chunksOfSucc_join (n : ℕ) : ∀ (len : ℕ) (l : List α), l.length = len →
    (chunksOfSucc n l).flatten = l := by
  intro len
  induction len using Nat.strong_induction_on with
  | _ len ih =>
    intro l hlen
    cases l with
    | nil => simp [chunksOfSucc]
    | cons x xs =>
      rw [List.length_cons] at hlen
      rw [show chunksOfSucc n (x :: xs)
          = ((x :: xs).take (n + 1)) :: chunksOfSucc n ((x :: xs).drop (n + 1)) from by
        simp [chunksOfSucc]]
      rw [List.flatten_cons,
        ih ((x :: xs).drop (n + 1)).length
          (by simp only [List.length_drop, List.length_cons]; omega)
          _ rfl]
      exact List.take_append_drop _ _

theorem foldl_max_init (r : List ℝ) (b c : ℝ) :
    r.foldl max (max b c) = max b (r.foldl max c) := by
  induction r generalizing c with
  | nil => simp
  | cons y ys ih =>
    simp only [List.foldl_cons]
    rw [max_assoc, ih]

theorem foldl_max_zero {row : List ℝ} (h : row ≠ []) :
    row.foldl max 0 = max 0 (rowMax row) := by
  cases row with
  | nil => exact absurd rfl h
  | cons y ys =>
    rw [rowMax_cons]
    simp only [List.foldl_cons]
    exact foldl_max_init ys 0 y

/-- When the embedding gateway embeds each text independently (one fixed
vector per text), batching is invisible: `_batched_embed` returns exactly the
per-text embeddings in order. -/
theorem batched_embed_pointwise (φ : String → List ℝ) (texts : List String) (bs : ℕ) :
    batched_embed (fun ts => ts.map φ) texts bs = texts.map φ := by
  simp only [batched_embed]
  by_cases h : texts.isEmpty
  · rw [if_pos h, List.isEmpty_iff.mp h]
    rfl
  · rw [if_neg h, ← List.map_flatten, chunksOfSucc_join _ texts.length texts rfl]

set_option maxHeartbeats 2000000 in
/-- One sentence of the equivalence: when the best cosine similarity of the
sentence against the chunks is strictly positive, the vectorized per-sentence
entry (argmax of the normalized-dot row) equals the nested-loop entry
(running best from `(0.0, "")`). -/
theorem vecEntry_eq_loopEntry (φ : String → List ℝ) (chunks : List SourceChunk)
    (hch : chunks ≠ []) (s : String)
    (hpos : 0 < rowMax (chunks.map (fun c => cosine_similarity (φ s) (φ c.text)))) :
    vecEntry chunks GROUNDING_THRESHOLD
        (s, ((chunks.map (fun c => c.text)).map φ).map
          (fun crow => dotList (normalizeRow (φ s)) (normalizeRow crow)))
      = loopEntry chunks ((chunks.map (fun c => c.text)).map φ) (s, φ s) := by
  have hrow : ((chunks.map (fun c => c.text)).map φ).map
      (fun crow => dotList (normalizeRow (φ s)) (normalizeRow crow))
      = chunks.map (fun c => cosine_similarity (φ s) (φ c.text)) := by
    rw [List.map_map, List.map_map]
    exact List.map_congr_left (fun c _ => dot_normalize_eq_cosine _ _)
  have hrowne : chunks.map (fun c => cosine_similarity (φ s) (φ c.text)) ≠ [] := by
    simpa using hch
  have hzip : chunks.zip ((chunks.map (fun c => c.text)).map φ)
      = chunks.map (fun c => (c, φ c.text)) := by
    rw [List.map_map]
    exact zip_map_self _ chunks
  simp only [vecEntry, loopEntry, hrow, hzip, List.foldl_map]
  have hfold := foldl_best_char (fun c => cosine_similarity (φ s) (φ c.text))
    (fun c => c.source ++ ", p" ++ toString c.page) chunks 0 ""
  rw [hfold]
  rw [foldl_max_zero hrowne, max_eq_right hpos.le, if_pos hpos]
  rw [getD_argmax hrowne]
  rw [show argmaxIdx (chunks.map (fun c => cosine_similarity (φ s) (φ c.text)))
      = (chunks.map (fun c => cosine_similarity (φ s) (φ c.text))).indexOf
          (rowMax (chunks.map (fun c => cosine_similarity (φ s) (φ c.text)))) from rfl,
    getD_indexOf_map (fun c => cosine_similarity (φ s) (φ c.text)) noChunk _ chunks
      (rowMax_mem hrowne)]
  obtain ⟨c0, hc0, hfc0⟩ := List.mem_map.mp (rowMax_mem hrowne)
  have hsome : (chunks.find? (fun c => decide (cosine_similarity (φ s) (φ c.text)
      = rowMax (chunks.map (fun c => cosine_similarity (φ s) (φ c.text)))))).isSome := by
    rw [List.find?_isSome]
    exact ⟨c0, hc0, by simp [hfc0]⟩
  obtain ⟨e, he⟩ := Option.isSome_iff_exists.mp hsome
  rw [he]
  simp only [Option.map_some', Option.getD_some]
  rfl

/-! ## Claim theorems -/

/-- C1 counterexample: with a single chunk of similarity −1 (and the empty
answer, so no embedding is involved) the report's `retrieval_confidence` is
−100, outside [0,100] — the bounds claim fails as stated for arbitrary
(possibly negative) similarity floats. -/
theorem C1_counterexample :
    (analyze_hallucination (fun _ => []) "" [negSimChunk] "q").retrieval_confidence = -100 ∧
    (analyze_hallucination (fun _ => []) "" [negSimChunk] "q").retrieval_confidence < 0 := by
  have h : (analyze_hallucination (fun _ => []) "" [negSimChunk] "q").retrieval_confidence
      = -100 := by
    simp only [analyze_hallucination]
    rw [retrieval_neg_eval]
    have h2 := round1_intCast (-100)
    push_cast at h2
    exact h2
  exact ⟨h, by rw [h]; norm_num⟩

/-- C1 (amended): `overallScore`, `numericalFidelity` and `entityConsistency`
always lie in [0,100]; `retrievalConfidence` and `responseGrounding` are
bounded above by 100 but not clamped below (see the counterexample), and
`retrievalConfidence` is nonnegative whenever every chunk similarity is
nonnegative. -/
theorem C1_bounds (embed : List String → List (List ℝ))
    (response query : String) (source_chunks : List SourceChunk) :
    (0 ≤ (analyze_hallucination embed response source_chunks query).overall_score
      ∧ (analyze_hallucination embed response source_chunks query).overall_score ≤ 100) ∧
    (0 ≤ (analyze_hallucination embed response source_chunks query).numerical_fidelity
      ∧ (analyze_hallucination embed response source_chunks query).numerical_fidelity ≤ 100) ∧
    (0 ≤ (analyze_hallucination embed response source_chunks query).entity_consistency
      ∧ (analyze_hallucination embed response source_chunks query).entity_consistency ≤ 100) ∧
    (analyze_hallucination embed response source_chunks query).retrieval_confidence ≤ 100 ∧
    (analyze_hallucination embed response source_chunks query).response_grounding ≤ 100 ∧
    ((∀ c ∈ source_chunks, 0 ≤ simOf c) →
      0 ≤ (analyze_hallucination embed response source_chunks query).retrieval_confidence) := by
  simp only [analyze_hallucination]
  refine ⟨⟨?_, ?_⟩, ⟨?_, ?_⟩, ⟨?_, ?_⟩, ?_, ?_, ?_⟩
  · exact round1_nonneg (le_min (by norm_num) (le_max_left 0 _))
  · exact round1_le_100 (min_le_left _ _)
  · exact round1_nonneg (numerical_fidelity_bounds _ _).1
  · exact round1_le_100 (numerical_fidelity_bounds _ _).2
  · exact round1_nonneg (entity_consistency_bounds _ _).1
  · exact round1_le_100 (entity_consistency_bounds _ _).2
  · exact round1_le_100 (retrieval_le_100 _)
  · exact round1_le_100 (grounding_fst_le_100 _ _ _ _ _)
  · intro hc
    exact round1_nonneg (retrieval_nonneg _ hc)

/-- Witness for C1 (amended) with a nonnegative-similarity chunk list. -/
theorem C1_bounds_witness :
    0 ≤ (analyze_hallucination (fun _ => []) "" [noChunk] "q").retrieval_confidence :=
  (C1_bounds (fun _ => []) "" "q" [noChunk]).2.2.2.2.2 (by
    intro c hc
    rw [List.mem_singleton] at hc
    subst hc
    norm_num [simOf, noChunk])

/-- C2 counterexample: for a chunk with similarity −1 the factor is −100,
whereas the claimed clamp to [0,100] of the scaled weighted average would be
0 — the code has no lower clamp. -/
theorem C2_counterexample :
    compute_retrieval_confidence [negSimChunk] = -100 ∧
    compute_retrieval_confidence [negSimChunk] ≠
      max 0 (min 100 (((simOf negSimChunk * (1 / ((0:ℝ) + 1)))
        / (1 / ((0:ℝ) + 1))) * 100)) := by
  refine ⟨retrieval_neg_eval, ?_⟩
  rw [retrieval_neg_eval]
  norm_num [negSimChunk, simOf]

/-- C2 (amended): the retrieval-confidence factor is the weighted average of
the chunks' `similarity` values with weight `1/(i+1)` for chunk *i*, scaled by
100 and capped above at 100 (no lower clamp at 0); an empty chunk list yields
0 and a chunk with no similarity contributes 0.0 rather than raising. -/
theorem C2_retrieval_confidence_formula (source_chunks : List SourceChunk) :
    (compute_retrieval_confidence source_chunks
      = if source_chunks.isEmpty then 0
        else min 100 ((∑ i ∈ Finset.range source_chunks.length,
              (source_chunks.map simOf).getD i 0 * ((1:ℝ) / ((i : ℝ) + 1)))
            / (∑ i ∈ Finset.range source_chunks.length, (1:ℝ) / ((i : ℝ) + 1)) * 100)) ∧
    (∀ (t s : String) (p : ℕ), simOf ⟨t, s, p, none⟩ = 0) := by
  refine ⟨?_, fun t s p => rfl⟩
  simp only [compute_retrieval_confidence]
  by_cases h : source_chunks.isEmpty
  · rw [if_pos h, if_pos h]
  · rw [if_neg h, if_neg h]
    rw [zip_weight_sum (source_chunks.map simOf) (fun i : ℕ => (1:ℝ)/((i:ℝ)+1)),
      sum_map_range, min_one_mul_100, List.length_map]

/-- Witness for C2 (amended): no hypotheses; instance at a concrete list. -/
theorem C2_retrieval_confidence_formula_witness :
    compute_retrieval_confidence [negSimChunk]
      = if ([negSimChunk] : List SourceChunk).isEmpty then 0
        else min 100 ((∑ i ∈ Finset.range ([negSimChunk] : List SourceChunk).length,
              (([negSimChunk] : List SourceChunk).map simOf).getD i 0 * ((1:ℝ) / ((i : ℝ) + 1)))
            / (∑ i ∈ Finset.range ([negSimChunk] : List SourceChunk).length,
                (1:ℝ) / ((i : ℝ) + 1)) * 100) :=
  (C2_retrieval_confidence_formula [negSimChunk]).1

/-- C9: the overall score is the weighted sum of the four factors under the
profile selected by chunk count (`highVolume` iff count ≥ 50), clamped to
[0,100] and rounded to one decimal; both profiles sum to 1. -/
theorem C9_weights_and_compose (embed : List String → List (List ℝ))
    (response query : String) (source_chunks : List SourceChunk) :
    ((analyze_hallucination embed response source_chunks query).overall_score
      = round1 (min 100 (max 0
          (compute_retrieval_confidence source_chunks
              * (if 50 ≤ source_chunks.length then HALLUCINATION_VOLUME_WEIGHTS
                  else HALLUCINATION_WEIGHTS).retrieval_confidence
            + (compute_response_grounding embed response source_chunks GROUNDING_THRESHOLD
                MAX_GROUNDING_CHUNKS).1
              * (if 50 ≤ source_chunks.length then HALLUCINATION_VOLUME_WEIGHTS
                  else HALLUCINATION_WEIGHTS).response_grounding
            + compute_numerical_fidelity response (build_source_context source_chunks)
              * (if 50 ≤ source_chunks.length then HALLUCINATION_VOLUME_WEIGHTS
                  else HALLUCINATION_WEIGHTS).numerical_fidelity
            + compute_entity_consistency response (build_source_context source_chunks)
              * (if 50 ≤ source_chunks.length then HALLUCINATION_VOLUME_WEIGHTS
                  else HALLUCINATION_WEIGHTS).entity_consistency)))) ∧
    HALLUCINATION_WEIGHTS.retrieval_confidence + HALLUCINATION_WEIGHTS.response_grounding
      + HALLUCINATION_WEIGHTS.numerical_fidelity
      + HALLUCINATION_WEIGHTS.entity_consistency = 1 ∧
    HALLUCINATION_VOLUME_WEIGHTS.retrieval_confidence
      + HALLUCINATION_VOLUME_WEIGHTS.response_grounding
      + HALLUCINATION_VOLUME_WEIGHTS.numerical_fidelity
      + HALLUCINATION_VOLUME_WEIGHTS.entity_consistency = 1 ∧
    (source_chunks.length = 49 →
      (if 50 ≤ source_chunks.length then HALLUCINATION_VOLUME_WEIGHTS
        else HALLUCINATION_WEIGHTS) = HALLUCINATION_WEIGHTS) ∧
    (source_chunks.length = 50 →
      (if 50 ≤ source_chunks.length then HALLUCINATION_VOLUME_WEIGHTS
        else HALLUCINATION_WEIGHTS) = HALLUCINATION_VOLUME_WEIGHTS) := by
  refine ⟨rfl, ?_, ?_, ?_, ?_⟩
  · norm_num [HALLUCINATION_WEIGHTS]
  · norm_num [HALLUCINATION_VOLUME_WEIGHTS]
  · intro h
    rw [if_neg (by omega)]
  · intro h
    rw [if_pos (by omega)]

/-- Witness for C9: 49 chunks select the standard profile, 50 the high-volume
profile. -/
theorem C9_weights_and_compose_witness :
    (if 50 ≤ (List.replicate 49 noChunk).length then HALLUCINATION_VOLUME_WEIGHTS
      else HALLUCINATION_WEIGHTS) = HALLUCINATION_WEIGHTS ∧
    (if 50 ≤ (List.replicate 50 noChunk).length then HALLUCINATION_VOLUME_WEIGHTS
      else HALLUCINATION_WEIGHTS) = HALLUCINATION_VOLUME_WEIGHTS :=
  ⟨(C9_weights_and_compose (fun _ => []) "" "q" (List.replicate 49 noChunk)).2.2.2.1
      (by simp),
   (C9_weights_and_compose (fun _ => []) "" "q" (List.replicate 50 noChunk)).2.2.2.2
      (by simp)⟩


theorem prefilter_counterexample_eval :
    (tfidf_prefilter "premium" [chunkA, chunkB, chunkC] 2).map (fun c => c.text)
      = ["premium", "premium filler"] := by
  have hr : tokenize "premium" = ["premium"] := by decide
  have hA : (tokenize chunkA.text).contains "premium" = true := by decide
  have hAcount : (tokenize chunkA.text).count "premium" = 1 := by decide
  have hAlen : (tokenize chunkA.text).length = 2 := by decide
  have hB : (tokenize chunkB.text).contains "premium" = false := by decide
  have hC : (tokenize chunkC.text).contains "premium" = true := by decide
  have hCcount : (tokenize chunkC.text).count "premium" = 1 := by decide
  have hClen : (tokenize chunkC.text).length = 1 := by decide
  have hRcount : (["premium"] : List String).count "premium" = 1 := by decide
  have hdedup : (["premium"] : List String).dedup = ["premium"] := by decide
  have hdf : [chunkA, chunkB, chunkC].countP
      (fun c => (tokenize c.text).contains "premium") = 2 := by decide
  have hlog : (0:ℝ) < Real.log (4/3) := Real.log_pos (by norm_num)
  have hlen3 : ([chunkA, chunkB, chunkC] : List SourceChunk).length = 3 := rfl
  simp only [tfidf_prefilter, hlen3]
  rw [if_neg (by norm_num), hr]
  rw [if_neg (by decide)]
  have hsA : tfidf_score ["premium"] 3
      (fun token => [chunkA, chunkB, chunkC].countP
        (fun c => (tokenize c.text).contains token)) chunkA = Real.log (4/3) / 2 := by
    simp only [tfidf_score, hdedup, List.map_cons, List.map_nil, List.sum_cons,
      List.sum_nil]
    rw [if_pos hA, hAcount, hAlen, hdf, hRcount]
    norm_num
    ring
  have hsB : tfidf_score ["premium"] 3
      (fun token => [chunkA, chunkB, chunkC].countP
        (fun c => (tokenize c.text).contains token)) chunkB = 0 := by
    simp only [tfidf_score, hdedup, List.map_cons, List.map_nil, List.sum_cons,
      List.sum_nil]
    rw [if_neg (by rw [hB]; exact Bool.false_ne_true)]
    norm_num
  have hsC : tfidf_score ["premium"] 3
      (fun token => [chunkA, chunkB, chunkC].countP
        (fun c => (tokenize c.text).contains token)) chunkC = Real.log (4/3) := by
    simp only [tfidf_score, hdedup, List.map_cons, List.map_nil, List.sum_cons,
      List.sum_nil]
    rw [if_pos hC, hCcount, hClen, hdf, hRcount]
    norm_num
  have henum : ([chunkA, chunkB, chunkC] : List SourceChunk).enum
      = [(0, chunkA), (1, chunkB), (2, chunkC)] := rfl
  rw [henum]
  simp only [List.map_cons, List.map_nil, hsA, hsB, hsC]
  rw [List.insertionSort, List.insertionSort, List.insertionSort, List.insertionSort]
  rw [List.orderedInsert]
  rw [show List.orderedInsert scoreGE (Real.log (4/3) / 2, 0, chunkA)
        (List.orderedInsert scoreGE (0, 1, chunkB) [(Real.log (4/3), 2, chunkC)])
      = [(Real.log (4/3), 2, chunkC), (Real.log (4/3) / 2, 0, chunkA), (0, 1, chunkB)] from ?_]
  · rfl
  · rw [List.orderedInsert, if_neg (by simp only [scoreGE]; linarith)]
    rw [List.orderedInsert, List.orderedInsert,
      if_neg (by simp only [scoreGE]; linarith),
      List.orderedInsert, if_pos (by simp only [scoreGE]; linarith)]

/-- C5 counterexample: with `maxChunks = 2` and three chunks whose best TF-IDF
score belongs to the last chunk, the prefilter returns the chunks in
descending-score order `[chunkC, chunkA]`, which is NOT a subsequence of the
input `[chunkA, chunkB, chunkC]` (the claim's "subsequence" fails; shown on
the `text` projections, which any subsequence would preserve). -/
theorem C5_counterexample :
    ((tfidf_prefilter "premium" [chunkA, chunkB, chunkC] 2).map (fun c => c.text)
      = ["premium", "premium filler"]) ∧
    ¬ List.Sublist
        ((tfidf_prefilter "premium" [chunkA, chunkB, chunkC] 2).map (fun c => c.text))
        ([chunkA, chunkB, chunkC].map (fun c => c.text)) := by
  refine ⟨prefilter_counterexample_eval, ?_⟩
  rw [prefilter_counterexample_eval]
  decide

/-- C5 (amended): the prefilter returns `min(maxChunks, len(chunks))` chunks
with all fields unchanged; below the cap it returns the input unchanged, and
when the answer tokenizes to nothing it returns the first `maxChunks` chunks
unchanged; otherwise it returns the `maxChunks` highest-TF-IDF-score chunks in
DESCENDING SCORE order with ties broken by original input order
(`scoreIdxLex`) — not, in general, a subsequence of the input (see the
counterexample). -/
theorem C5_prefilter_contract (response : String) (source_chunks : List SourceChunk)
    (max_chunks : ℕ) :
    (tfidf_prefilter response source_chunks max_chunks).length
        = min max_chunks source_chunks.length ∧
    (source_chunks.length ≤ max_chunks →
      tfidf_prefilter response source_chunks max_chunks = source_chunks) ∧
    (max_chunks < source_chunks.length → tokenize response = [] →
      tfidf_prefilter response source_chunks max_chunks = source_chunks.take max_chunks) ∧
    (max_chunks < source_chunks.length → tokenize response ≠ [] →
      tfidf_prefilter response source_chunks max_chunks
        = (((source_chunks.enum.map (fun p =>
              ((tfidf_score (tokenize response) source_chunks.length
                  (fun token => source_chunks.countP (fun c => (tokenize c.text).contains token))
                  p.2, p.1, p.2) : Scored))).insertionSort scoreIdxLex).take max_chunks).map
            (fun t => t.2.2)) := by
  have hpair : (source_chunks.enum.map (fun p =>
      ((tfidf_score (tokenize response) source_chunks.length
          (fun token => source_chunks.countP (fun c => (tokenize c.text).contains token))
          p.2, p.1, p.2) : Scored))).Pairwise (fun a b => a.2.1 < b.2.1) := by
    rw [List.pairwise_map]
    exact pairwise_fst_lt_enumFrom 0 source_chunks
  refine ⟨?_, ?_, ?_, ?_⟩
  · simp only [tfidf_prefilter]
    by_cases h1 : source_chunks.length ≤ max_chunks
    · rw [if_pos h1, Nat.min_eq_right h1]
    · rw [if_neg h1]
      by_cases h2 : (tokenize response).isEmpty
      · rw [if_pos h2, List.length_take]
      · rw [if_neg h2]
        simp only [List.length_map, List.length_take, List.length_insertionSort,
          List.enum_length]
  · intro h
    simp only [tfidf_prefilter]
    rw [if_pos h]
  · intro h1 h2
    simp only [tfidf_prefilter]
    rw [if_neg (not_le.mpr h1), if_pos (List.isEmpty_iff.mpr h2)]
  · intro h1 h2
    simp only [tfidf_prefilter]
    rw [if_neg (not_le.mpr h1), if_neg (by simpa [List.isEmpty_iff] using h2),
      insertionSort_stable _ hpair]

/-- Witness for C5 (amended): below the cap the input is returned unchanged. -/
theorem C5_prefilter_contract_witness :
    tfidf_prefilter "anything" [chunkA] 5 = [chunkA] :=
  (C5_prefilter_contract "anything" [chunkA] 5).2.1 (by norm_num)

/-- C6: a sentence is grounded iff its best raw similarity strictly exceeds the
grounding threshold 0.65 (0.650001 flips to grounded, 0.649999 does not), and
the per-sentence score is `min(1, bestSim/0.8) * 100`, which is exactly 100
from a best similarity of 0.8 upward. -/
theorem C6_threshold_and_rescale (sent best_source : String) (best_sim : ℝ) :
    ((mkSentenceGrounding sent best_sim best_source GROUNDING_THRESHOLD).is_grounded = true
      ↔ (0.65 : ℝ) < best_sim) ∧
    sentenceScore best_sim = min 1 (best_sim / 0.8) * 100 ∧
    ((0.8 : ℝ) ≤ best_sim → sentenceScore best_sim = 100) ∧
    (mkSentenceGrounding sent (0.650001 : ℝ) best_source GROUNDING_THRESHOLD).is_grounded = true ∧
    (mkSentenceGrounding sent (0.649999 : ℝ) best_source GROUNDING_THRESHOLD).is_grounded = false := by
  refine ⟨?_, rfl, ?_, ?_, ?_⟩
  · simp [mkSentenceGrounding, GROUNDING_THRESHOLD]
  · intro h
    unfold sentenceScore
    rw [min_eq_left ((one_le_div (by norm_num)).mpr (by linarith))]
    norm_num
  · simp [mkSentenceGrounding, GROUNDING_THRESHOLD]
    norm_num
  · simp [mkSentenceGrounding, GROUNDING_THRESHOLD]
    norm_num

/-- Witness for C6 at `best_sim = 0.9`. -/
theorem C6_threshold_and_rescale_witness :
    (mkSentenceGrounding "s" (0.9 : ℝ) "d" GROUNDING_THRESHOLD).is_grounded = true ∧
    sentenceScore (0.9 : ℝ) = 100 :=
  ⟨(C6_threshold_and_rescale "s" "d" 0.9).1.mpr (by norm_num),
   (C6_threshold_and_rescale "s" "d" 0.9).2.2.1 (by norm_num)⟩



/-- C3 counterexample: with identical per-text embeddings and one chunk (well
below the cap), the vectorized computation reports the true best similarity
−1, per-sentence score −125, while the nested loop — whose running best
starts at `(0.0, "")` — reports best similarity 0 and score 0: the two
implementations disagree whenever a sentence's best cosine similarity is not
strictly positive. -/
theorem C3_counterexample :
    (compute_response_grounding (fun ts => ts.map phiCE) "The premium is not refundable."
        [chunkD] GROUNDING_THRESHOLD MAX_GROUNDING_CHUNKS).1 = -125 ∧
    (compute_response_grounding_loop (fun ts => ts.map phiCE) "The premium is not refundable."
        [chunkD]).1 = 0 ∧
    compute_response_grounding (fun ts => ts.map phiCE) "The premium is not refundable."
        [chunkD] GROUNDING_THRESHOLD MAX_GROUNDING_CHUNKS
      ≠ compute_response_grounding_loop (fun ts => ts.map phiCE)
        "The premium is not refundable." [chunkD] := by
  have hsent : split_sentences "The premium is not refundable."
      = ["The premium is not refundable."] := by decide
  have hp1 : phiCE "The premium is not refundable." = [1] := if_pos rfl
  have hp2 : phiCE chunkD.text = [-1] := by
    simp only [phiCE]
    rw [if_neg (by decide)]
  have hl1 : l2norm [(1:ℝ)] = 1 := by
    simp [l2norm]
  have hl2 : l2norm [(-1:ℝ)] = 1 := by
    norm_num [l2norm]
  have hn1 : normalizeRow [(1:ℝ)] = [1] := by
    norm_num [normalizeRow, hl1]
  have hn2 : normalizeRow [(-1:ℝ)] = [-1] := by
    norm_num [normalizeRow, hl2]
  have hdot : dotList [(1:ℝ)] [(-1:ℝ)] = -1 := by
    norm_num [dotList]
  have hcos : cosine_similarity [(1:ℝ)] [(-1:ℝ)] = -1 := by
    norm_num [cosine_similarity, hl1, hl2, hdot]
  have hpre : tfidf_prefilter "The premium is not refundable." [chunkD] MAX_GROUNDING_CHUNKS
      = [chunkD] := by
    simp only [tfidf_prefilter]
    rw [if_pos (by norm_num [MAX_GROUNDING_CHUNKS])]
  have h1 : (compute_response_grounding (fun ts => ts.map phiCE)
      "The premium is not refundable." [chunkD] GROUNDING_THRESHOLD
      MAX_GROUNDING_CHUNKS).1 = -125 := by
    simp only [compute_response_grounding, hsent]
    rw [if_neg (by decide)]
    rw [hpre, batched_embed_pointwise, batched_embed_pointwise]
    simp only [List.map_cons, List.map_nil, hp1, hp2, hn1, hn2, hdot,
      List.zip_cons_cons, List.zip_nil_right, vecEntry]
    simp only [argmaxIdx, rowMax, List.foldl_nil, List.indexOf_cons_self,
      List.getD_cons_zero]
    norm_num [sentenceScore, min_def]
  have h2 : (compute_response_grounding_loop (fun ts => ts.map phiCE)
      "The premium is not refundable." [chunkD]).1 = 0 := by
    simp only [compute_response_grounding_loop, hsent]
    rw [if_neg (by decide)]
    simp only [List.map_cons, List.map_nil, hp1, hp2,
      List.zip_cons_cons, List.zip_nil_right, loopEntry, List.foldl_cons,
      List.foldl_nil, hcos]
    norm_num [sentenceScore, min_def]
  refine ⟨h1, h2, fun hc => ?_⟩
  rw [hc, h2] at h1
  norm_num at h1

/-- C3 (amended): with per-text embeddings, a chunk list within the
pre-filter cap, and every qualifying sentence attaining a strictly positive
best cosine similarity, the vectorized grounding computation (row-wise L2
normalization, matrix product, first-argmax per row) returns exactly the same
result — best similarity, best-source chunk, isGrounded flag and per-sentence
score — as the nested-loop implementation it replaces; moreover each
similarity-matrix entry always equals the loop's cosine similarity.  (Without
the positivity hypothesis the two differ: the loop's running best starts at
`(0.0, "")`, see the counterexample.) -/
theorem C3_vectorized_matches_loop (φ : String → List ℝ) (response : String)
    (source_chunks : List SourceChunk) (max_chunks : ℕ)
    (hcap : source_chunks.length ≤ max_chunks)
    (hpos : ∀ s ∈ split_sentences response,
      0 < rowMax (source_chunks.map (fun c => cosine_similarity (φ s) (φ c.text)))) :
    (compute_response_grounding (fun ts => ts.map φ) response source_chunks
        GROUNDING_THRESHOLD max_chunks
      = compute_response_grounding_loop (fun ts => ts.map φ) response source_chunks) ∧
    (∀ a b : List ℝ, dotList (normalizeRow a) (normalizeRow b) = cosine_similarity a b) := by
  refine ⟨?_, dot_normalize_eq_cosine⟩
  by_cases hempty : ((split_sentences response).isEmpty || source_chunks.isEmpty) = true
  · simp only [compute_response_grounding, compute_response_grounding_loop]
    rw [if_pos hempty, if_pos hempty]
  · have hch : source_chunks ≠ [] := by
      simp only [Bool.or_eq_true, not_or] at hempty
      simpa [List.isEmpty_iff] using hempty.2
    have hpre : tfidf_prefilter response source_chunks max_chunks = source_chunks := by
      simp only [tfidf_prefilter]
      rw [if_pos hcap]
    have hent : ((split_sentences response).zip
          (((split_sentences response).map φ).map (fun srow =>
            ((source_chunks.map (fun c => c.text)).map φ).map
              (fun crow => dotList (normalizeRow srow) (normalizeRow crow))))).map
        (vecEntry source_chunks GROUNDING_THRESHOLD)
      = ((split_sentences response).zip ((split_sentences response).map φ)).map
          (loopEntry source_chunks ((source_chunks.map (fun c => c.text)).map φ)) := by
      rw [zip_map_self φ (split_sentences response)]
      rw [show ((split_sentences response).map φ).map (fun srow =>
            ((source_chunks.map (fun c => c.text)).map φ).map
              (fun crow => dotList (normalizeRow srow) (normalizeRow crow)))
          = (split_sentences response).map (fun x =>
            ((source_chunks.map (fun c => c.text)).map φ).map
              (fun crow => dotList (normalizeRow (φ x)) (normalizeRow crow)))
        from List.map_map _ _ _]
      rw [zip_map_self _ (split_sentences response)]
      rw [show ((split_sentences response).map (fun x =>
              (x, ((source_chunks.map (fun c => c.text)).map φ).map
                (fun crow => dotList (normalizeRow (φ x)) (normalizeRow crow))))).map
            (vecEntry source_chunks GROUNDING_THRESHOLD)
          = (split_sentences response).map
            ((vecEntry source_chunks GROUNDING_THRESHOLD) ∘ (fun x =>
              (x, ((source_chunks.map (fun c => c.text)).map φ).map
                (fun crow => dotList (normalizeRow (φ x)) (normalizeRow crow)))))
        from List.map_map _ _ _]
      rw [show ((split_sentences response).map (fun x => (x, φ x))).map
            (loopEntry source_chunks ((source_chunks.map (fun c => c.text)).map φ))
          = (split_sentences response).map
            ((loopEntry source_chunks ((source_chunks.map (fun c => c.text)).map φ))
              ∘ (fun x => (x, φ x)))
        from List.map_map _ _ _]
      apply List.map_congr_left
      intro s hs
      simp only [Function.comp_apply]
      exact vecEntry_eq_loopEntry φ source_chunks hch s (hpos s hs)
    simp only [compute_response_grounding, compute_response_grounding_loop]
    rw [if_neg hempty, if_neg hempty, hpre, batched_embed_pointwise,
      batched_embed_pointwise, hent]

/-- Witness for C3 (amended): constant embeddings give cosine similarity 1,
so every sentence's best similarity is positive and the two implementations
coincide. -/
theorem C3_vectorized_matches_loop_witness :
    compute_response_grounding (fun ts => ts.map (fun _ => [(1:ℝ)]))
        "The premium is not refundable." [chunkD] GROUNDING_THRESHOLD MAX_GROUNDING_CHUNKS
      = compute_response_grounding_loop (fun ts => ts.map (fun _ => [(1:ℝ)]))
        "The premium is not refundable." [chunkD] := by
  have hl1 : l2norm [(1:ℝ)] = 1 := by simp [l2norm]
  have hcos : cosine_similarity [(1:ℝ)] [(1:ℝ)] = 1 := by
    norm_num [cosine_similarity, hl1, dotList]
  exact (C3_vectorized_matches_loop (fun _ => [(1:ℝ)])
    "The premium is not refundable." [chunkD] MAX_GROUNDING_CHUNKS
    (by norm_num [MAX_GROUNDING_CHUNKS])
    (by
      intro s hs
      simp only [List.map_cons, List.map_nil, hcos]
      norm_num [rowMax])).1

/-- C4: when the answer yields no qualifying sentences or the chunk list is
empty, `analyze` does not depend on the embedding gateway (no call is made)
and the report has `response_grounding = 0` and empty `sentence_details`. -/
theorem C4_no_embedding_on_empty (e₁ e₂ : List String → List (List ℝ))
    (response query : String) (source_chunks : List SourceChunk)
    (h : split_sentences response = [] ∨ source_chunks = []) :
    analyze_hallucination e₁ response source_chunks query
      = analyze_hallucination e₂ response source_chunks query ∧
    (analyze_hallucination e₁ response source_chunks query).response_grounding = 0 ∧
    (analyze_hallucination e₁ response source_chunks query).sentence_details = [] := by
  have hg : ∀ e : List String → List (List ℝ),
      compute_response_grounding e response source_chunks
        GROUNDING_THRESHOLD MAX_GROUNDING_CHUNKS = (0, []) := by
    intro e
    rcases h with h | h <;> simp [compute_response_grounding, h]
  refine ⟨?_, ?_, ?_⟩
  · simp only [analyze_hallucination, hg e₁, hg e₂]
  · simp [analyze_hallucination, hg e₁, round1_zero]
  · simp [analyze_hallucination, hg e₁]

/-- Witness for C4: empty chunk list, two distinct gateways. -/
theorem C4_no_embedding_on_empty_witness :
    analyze_hallucination (fun _ => []) "hello" [] "q"
      = analyze_hallucination (fun _ => [[1]]) "hello" [] "q" ∧
    (analyze_hallucination (fun _ => []) "hello" [] "q").response_grounding = 0 ∧
    (analyze_hallucination (fun _ => []) "hello" [] "q").sentence_details = [] :=
  C4_no_embedding_on_empty (fun _ => []) (fun _ => [[1]]) "hello" "q" [] (Or.inr rfl)

/-- C7: the numerical-fidelity factor is 100 for an answer without extractable
numbers, else `matched / total × 100` where an answer number matches iff its
comma-and-dollar-stripped form is a substring of a similarly stripped source
number or the raw number occurs in the source text; concretely, the answer
"The premium is $25,000." scores 100 against "The annual premium is $25,000."
and 0 against the number-free "no digits here at all.". -/
theorem C7_numerical_fidelity (response source_text : String) :
    (compute_numerical_fidelity response source_text
      = if extract_numbers response = [] then 100
        else ((extract_numbers response).countP (fun num =>
            (extract_numbers source_text).any (fun sn =>
              containsSub (cleanNum num).data (cleanNum sn).data)
            || containsSub num.data source_text.data) : ℝ)
          / (extract_numbers response).length * 100) ∧
    compute_numerical_fidelity "The premium is $25,000." "The annual premium is $25,000."
      = 100 ∧
    compute_numerical_fidelity "The premium is $25,000." "no digits here at all." = 0 := by
  have ha : extract_numbers "The premium is $25,000." = ["$25,000", "25,000", "25", "000."] := by
    decide
  refine ⟨?_, ?_, ?_⟩
  · simp only [compute_numerical_fidelity]
    by_cases h : extract_numbers response = []
    · rw [if_pos (List.isEmpty_iff.mpr h), if_pos h]
    · rw [if_neg (by simpa [List.isEmpty_iff] using h), if_neg h]
  · have hcount : (["$25,000", "25,000", "25", "000."].countP (fun num =>
        (extract_numbers "The annual premium is $25,000.").any (fun sn =>
          containsSub (cleanNum num).data (cleanNum sn).data)
        || containsSub num.data "The annual premium is $25,000.".data)) = 4 := by decide
    simp only [compute_numerical_fidelity, ha]
    rw [if_neg (by decide), hcount]
    norm_num
  · have hcount : (["$25,000", "25,000", "25", "000."].countP (fun num =>
        (extract_numbers "no digits here at all.").any (fun sn =>
          containsSub (cleanNum num).data (cleanNum sn).data)
        || containsSub num.data "no digits here at all.".data)) = 0 := by decide
    simp only [compute_numerical_fidelity, ha]
    rw [if_neg (by decide), hcount]
    norm_num

/-- C8: `flaggedClaims` is exactly the first (in answer order) up-to-10
ungrounded sentence strings, its length is `min 10 (#ungrounded)` (hence at
most 10, and exactly 10 once 15 or more sentences are ungrounded), and it is a
subset by content of the ungrounded sentences of `sentenceDetails`. -/
theorem C8_flagged_claims (embed : List String → List (List ℝ))
    (response query : String) (source_chunks : List SourceChunk) :
    ((analyze_hallucination embed response source_chunks query).flagged_claims
      = (((analyze_hallucination embed response source_chunks query).sentence_details.filter
          (fun d => !d.is_grounded)).map (fun d => d.sentence)).take 10) ∧
    (analyze_hallucination embed response source_chunks query).flagged_claims.length
      = min 10 ((analyze_hallucination embed response source_chunks query).sentence_details.countP
          (fun d => !d.is_grounded)) ∧
    (analyze_hallucination embed response source_chunks query).flagged_claims
      ⊆ ((analyze_hallucination embed response source_chunks query).sentence_details.filter
          (fun d => !d.is_grounded)).map (fun d => d.sentence) := by
  refine ⟨rfl, ?_, ?_⟩
  · rw [List.countP_eq_length_filter]
    simp only [analyze_hallucination]
    rw [List.length_take, List.length_map]
  · simp only [analyze_hallucination]
    exact List.take_subset _ _

/-- C10: on the empty answer and empty chunk list the report is
`numerical_fidelity = entity_consistency = 100`,
`retrieval_confidence = response_grounding = 0`, `overall_score = 40.0` under
the standard weights, and rating `"high"` — not an overall score of 0. -/
theorem C10_empty_answer_empty_chunks (embed : List String → List (List ℝ)) (query : String) :
    (analyze_hallucination embed "" [] query).numerical_fidelity = 100 ∧
    (analyze_hallucination embed "" [] query).entity_consistency = 100 ∧
    (analyze_hallucination embed "" [] query).retrieval_confidence = 0 ∧
    (analyze_hallucination embed "" [] query).response_grounding = 0 ∧
    (analyze_hallucination embed "" [] query).overall_score = 40 ∧
    (analyze_hallucination embed "" [] query).rating = "high" := by
  have hn : extract_numbers "" = [] := by decide
  have he : extract_entities "" = [] := by decide
  have hctx : build_source_context [] = "" := by decide
  have hg : compute_response_grounding embed "" [] GROUNDING_THRESHOLD MAX_GROUNDING_CHUNKS
      = (0, []) := by
    simp [compute_response_grounding]
  have hr : compute_retrieval_confidence [] = 0 := by simp [compute_retrieval_confidence]
  have hnum : compute_numerical_fidelity "" "" = 100 := by
    simp [compute_numerical_fidelity, hn]
  have hent : compute_entity_consistency "" "" = 100 := by
    simp [compute_entity_consistency, he]
  have h40 : round1 (40 : ℝ) = 40 := by simpa using round1_intCast 40
  have hover : (analyze_hallucination embed "" [] query).overall_score = 40 := by
    simp only [analyze_hallucination, hctx, hg, hr, hnum, hent]
    norm_num [HALLUCINATION_WEIGHTS, VOLUME_THRESHOLD, h40]
  refine ⟨?_, ?_, ?_, ?_, hover, ?_⟩
  · simp [analyze_hallucination, hctx, hnum]
    simpa using round1_intCast 100
  · simp [analyze_hallucination, hctx, hent]
    simpa using round1_intCast 100
  · simp [analyze_hallucination, hr, round1_zero]
  · simp [analyze_hallucination, hg, round1_zero]
  · have : (analyze_hallucination embed "" [] query).rating
        = rate (analyze_hallucination embed "" [] query).overall_score := by
      simp [analyze_hallucination]
    rw [this, hover, rate, if_neg (by norm_num), if_neg (by norm_num)]

end Vine
